import Mathlib

/-!
Verification of `refnx/reduce/parabolic_motion.py`.

The module computes kinematics of an object moving on a parabolic path under
constant gravity.  All angles at the interface are in degrees; all internal
trigonometry is in radians.  The embedding below translates the source
functions into exact real (and, for the root selection of
`parabola_line_intersection_point`, complex) arithmetic:

* `parabola_eqn` builds the ascending coefficient triple
  `[0, tan(traj), -g/2/(speed*cos(traj))**2]`;
* `y_deflection` evaluates that polynomial at `flight_length`
  (`numpy.polynomial.polynomial.polyval`, Horner form);
* `elevation` evaluates the derivative polynomial and takes `arctan`,
  converted back to degrees;
* `find_trajectory` runs a scalar root-finder (`scipy.optimize.newton`,
  secant form, start value 0) on the residual
  `tan(theta)*flight_length - y_deflection(traj, flight_length, speed)`;
* `parabola_line_intersection_point` forms the quadratic
  `[c0 - a1, c1 - b1, c2]`, takes `np.max` of its (possibly complex) roots
  (`numpy` orders complex values lexicographically on `(re, im)`), and
  returns the intersection coordinates together with the Euclidean distance
  to the reference point.
-/

namespace ParabolicMotion

noncomputable section

/-- `scipy.constants.g`, standard acceleration of gravity. -/
def g : ℝ := 9.80665

/-- `np.radians`: degrees to radians. -/
def radians (d : ℝ) : ℝ := d * (Real.pi / 180)

/-- `np.degrees`: radians to degrees. -/
def degrees (r : ℝ) : ℝ := r * (180 / Real.pi)

/-- `parabola_eqn(initial_trajectory, speed)`: the ascending coefficient
triple `np.array([0., np.tan(traj_rad), -constants.g / 2. /
(speed * np.cos(traj_rad)) ** 2.])`. -/
def parabola_eqn (initial_trajectory speed : ℝ) : ℝ × ℝ × ℝ :=
  (0, Real.tan (radians initial_trajectory),
    -g / 2 / (speed * Real.cos (radians initial_trajectory)) ^ 2)

/-- `numpy.polynomial.polynomial.polyval` on a degree-2 coefficient triple
(Horner scheme). -/
def polyval (x : ℝ) (c : ℝ × ℝ × ℝ) : ℝ := c.1 + x * (c.2.1 + x * c.2.2)

/-- `y_deflection(initial_trajectory, flight_length, speed)`. -/
def y_deflection (initial_trajectory flight_length speed : ℝ) : ℝ :=
  polyval flight_length (parabola_eqn initial_trajectory speed)

/-- `numpy.polynomial.polynomial.polyder` of a degree-2 coefficient triple:
`[c1, 2*c2]`. -/
def polyder (c : ℝ × ℝ × ℝ) : ℝ × ℝ := (c.2.1, 2 * c.2.2)

/-- `polyval` on a degree-1 coefficient pair. -/
def polyval1 (x : ℝ) (c : ℝ × ℝ) : ℝ := c.1 + x * c.2

/-- `elevation(initial_trajectory, flight_length, speed)`:
`np.degrees(np.arctan(polyval(flight_length, polyder(eqn))))`. -/
def elevation (initial_trajectory flight_length speed : ℝ) : ℝ :=
  degrees (Real.arctan
    (polyval1 flight_length (polyder (parabola_eqn initial_trajectory speed))))

/-- `vertical_deflection_vertex = np.tan(theta_rad) * flight_length` inside
`find_trajectory`. -/
def vertical_deflection_vertex (theta flight_length : ℝ) : ℝ :=
  Real.tan (radians theta) * flight_length

/-- The local residual `traj(trajectory)` inside `find_trajectory`:
`vertical_deflection_vertex - y_deflection(trajectory, flight_length, speed)`. -/
def traj (theta flight_length speed trajectory : ℝ) : ℝ :=
  vertical_deflection_vertex theta flight_length -
    y_deflection trajectory flight_length speed

/-- One secant update: the next iterate computed from the previous two. -/
def secant_next (f : ℝ → ℝ) (x0 x1 : ℝ) : ℝ :=
  x1 - f x1 * (x1 - x0) / (f x1 - f x0)

/-- Modelled from the spec: `scipy.optimize.newton` is not part of the
repository sources.  Per the spec's convergence/failure semantics it is a
derivative-based scalar root-finder (secant iteration when no derivative is
supplied) that returns the current iterate once two successive iterates agree
to within `tol`, and raises a distinct "failed to converge" error when the
iteration budget is exhausted. -/
def newton_model (f : ℝ → ℝ) (x0 x1 tol : ℝ) : ℕ → Except String ℝ
  | 0 => Except.error "failed to converge"
  | Nat.succ n =>
      if |x1 - x0| < tol then Except.ok x1
      else if f x1 = f x0 then Except.error "failed to converge"
      else newton_model f x1 (secant_next f x0 x1) tol n

/-- The (previous, current) iterate pair after `k` secant steps from the
start pair `(x0, x1)`: the states the root-finder's iteration passes
through. -/
def secant_iter (f : ℝ → ℝ) (x0 x1 : ℝ) : ℕ → ℝ × ℝ
  | 0 => (x0, x1)
  | Nat.succ n =>
      ((secant_iter f x0 x1 n).2,
       secant_next f (secant_iter f x0 x1 n).1 (secant_iter f x0 x1 n).2)

/-- `find_trajectory(theta, flight_length, speed)`: run the root-finder on
the residual, initialized at trajectory 0 (the solver's second secant point
and tolerance are its scipy defaults; its iteration budget is explicit). -/
def find_trajectory (theta flight_length speed : ℝ) (budget : ℕ) :
    Except String ℝ :=
  newton_model (traj theta flight_length speed) 0 0.0001 (1.48 * 10 ^ (-8 : ℤ))
    budget

/-- Line intercept `a1 = flight_length * (np.tan(theta_rad) - np.tan(omega_rad))`
inside `parabola_line_intersection_point`. -/
def line_intercept (theta flight_length omega : ℝ) : ℝ :=
  flight_length * (Real.tan (radians theta) - Real.tan (radians omega))

/-- Line gradient `b1 = np.tan(omega_rad)`. -/
def line_gradient (omega : ℝ) : ℝ := Real.tan (radians omega)

/-- The ascending coefficient triple `[eqn[0] - a1, eqn[1] - b1, eqn[2]]`
passed to `polyroots` by `parabola_line_intersection_point`. -/
def intersect_poly (initial_trajectory speed theta flight_length omega : ℝ) :
    ℝ × ℝ × ℝ :=
  ((parabola_eqn initial_trajectory speed).1 -
      line_intercept theta flight_length omega,
   (parabola_eqn initial_trajectory speed).2.1 - line_gradient omega,
   (parabola_eqn initial_trajectory speed).2.2)

/-- A real root of the quadratic with ascending coefficients `q`. -/
def isRoot2 (q : ℝ × ℝ × ℝ) (x : ℝ) : Prop :=
  q.1 + q.2.1 * x + q.2.2 * x ^ 2 = 0

/-- `np.max` over a pair of complex values: `numpy` orders complex numbers
lexicographically on `(re, im)`. -/
def npMaxC (z w : ℂ) : ℂ :=
  if z.re < w.re then w
  else if w.re < z.re then z
  else if z.im < w.im then w
  else z

/-- `numpy.polynomial.polynomial.polyroots` on the ascending coefficients
`[q0, q1, q2]` of a genuine quadratic (`q2 ≠ 0`): the two (possibly complex)
roots of `q0 + q1*x + q2*x^2`. -/
def polyroots2 (q0 q1 q2 : ℝ) : ℂ × ℂ :=
  if 0 ≤ q1 ^ 2 - 4 * q2 * q0 then
    (⟨(-q1 - Real.sqrt (q1 ^ 2 - 4 * q2 * q0)) / (2 * q2), 0⟩,
     ⟨(-q1 + Real.sqrt (q1 ^ 2 - 4 * q2 * q0)) / (2 * q2), 0⟩)
  else
    (⟨-q1 / (2 * q2), -(Real.sqrt (4 * q2 * q0 - q1 ^ 2) / (2 * q2))⟩,
     ⟨-q1 / (2 * q2), Real.sqrt (4 * q2 * q0 - q1 ^ 2) / (2 * q2)⟩)

/-- `np.sqrt` on a complex value: the principal square root (for a
nonnegative real argument this is the usual real square root). -/
def csqrt (z : ℂ) : ℂ :=
  if z.im = 0 ∧ 0 ≤ z.re then ⟨Real.sqrt z.re, 0⟩
  else if z.im = 0 then ⟨0, Real.sqrt (-z.re)⟩
  else ⟨Real.sqrt ((Complex.abs z + z.re) / 2),
        (if z.im < 0 then -1 else 1) * Real.sqrt ((Complex.abs z - z.re) / 2)⟩

/-- `parabola_line_intersection_point(initial_trajectory, speed, theta,
flight_length, omega)`, returning `(intersection_x, intersection_y,
np.sqrt(distance))`. -/
def parabola_line_intersection_point
    (initial_trajectory speed theta flight_length omega : ℝ) : ℂ × ℂ × ℂ :=
  let a1 := line_intercept theta flight_length omega
  let b1 := line_gradient omega
  let q := intersect_poly initial_trajectory speed theta flight_length omega
  let roots := polyroots2 q.1 q.2.1 q.2.2
  let intersection_x := npMaxC roots.1 roots.2
  let intersection_y := (a1 : ℂ) + intersection_x * (b1 : ℂ)
  let distance := (intersection_x - (flight_length : ℂ)) ^ 2 +
    (intersection_y - ((flight_length * Real.tan (radians theta) : ℝ) : ℂ)) ^ 2
  (intersection_x, intersection_y, csqrt distance)

end

theorem g_pos : (0 : ℝ) < g := by norm_num [g]

theorem degrees_radians (t : ℝ) : degrees (radians t) = t := by
  unfold degrees radians
  field_simp

theorem radians_degrees (r : ℝ) : radians (degrees r) = r := by
  unfold degrees radians
  field_simp

theorem newton_model_error_msg (f : ℝ → ℝ) (tol : ℝ) :
    ∀ (n : ℕ) (x0 x1 : ℝ) (e : String),
      newton_model f x0 x1 tol n = Except.error e → e = "failed to converge" := by
  intro n
  induction n with
  | zero =>
      intro x0 x1 e h
      simp [newton_model] at h
      exact h.symm
  | succ n ih =>
      intro x0 x1 e h
      by_cases h1 : |x1 - x0| < tol
      · simp [newton_model, h1] at h
      · by_cases h2 : f x1 = f x0
        · simp [newton_model, h1, h2] at h
          exact h.symm
        · simp [newton_model, h1, h2] at h
          exact ih _ _ _ h

theorem secant_iter_shift (f : ℝ → ℝ) (x0 x1 : ℝ) :
    ∀ k, secant_iter f x1 (secant_next f x0 x1) k = secant_iter f x0 x1 (k + 1) := by
  intro k
  induction k with
  | zero => rfl
  | succ k ih => simp only [secant_iter, ih]

theorem newton_model_ok_iterate (f : ℝ → ℝ) (tol : ℝ) :
    ∀ (n : ℕ) (x0 x1 v : ℝ),
      newton_model f x0 x1 tol n = Except.ok v →
      ∃ k, k < n ∧ (secant_iter f x0 x1 k).2 = v ∧
        |(secant_iter f x0 x1 k).2 - (secant_iter f x0 x1 k).1| < tol := by
  intro n
  induction n with
  | zero => intro x0 x1 v h; simp [newton_model] at h
  | succ n ih =>
      intro x0 x1 v h
      by_cases h1 : |x1 - x0| < tol
      · simp [newton_model, h1] at h
        refine ⟨0, Nat.succ_pos n, ?_, ?_⟩
        · simpa [secant_iter] using h
        · simpa [secant_iter] using h1
      · by_cases h2 : f x1 = f x0
        · simp [newton_model, h1, h2] at h
        · simp [newton_model, h1, h2] at h
          obtain ⟨k, hk, hv, ht⟩ := ih _ _ _ h
          refine ⟨k + 1, Nat.succ_lt_succ hk, ?_, ?_⟩
          · rw [← secant_iter_shift f x0 x1 k]
            exact hv
          · rw [← secant_iter_shift f x0 x1 k]
            exact ht

theorem parabola_c2_neg {t s : ℝ} (h : s * Real.cos (radians t) ≠ 0) :
    (parabola_eqn t s).2.2 < 0 := by
  show -g / 2 / (s * Real.cos (radians t)) ^ 2 < 0
  apply div_neg_of_neg_of_pos
  · norm_num [g]
  · exact sq_pos_of_ne_zero h

/-- Claim C3: `parabola_eqn` returns exactly the ascending coefficient triple
with constant term 0, linear term `tan(radians(initial_trajectory))` and
quadratic term `-g / (2 * (speed * cos(radians(initial_trajectory)))^2)`;
consequently `y_deflection initial_trajectory 0 speed = 0` for every input,
i.e. the trajectory passes through the origin. -/
theorem parabola_eqn_coeffs_and_through_origin (t s : ℝ) :
    parabola_eqn t s =
      (0, Real.tan (radians t), -g / (2 * (s * Real.cos (radians t)) ^ 2)) ∧
    y_deflection t 0 s = 0 := by
  constructor
  · unfold parabola_eqn
    rw [div_div]
  · simp [y_deflection, polyval, parabola_eqn]

/-- Claim C5, counterexample: at `speed = 500`, `initial_trajectory = 0`,
`flight_length = 2` the code returns exactly `-0.0000784532`
(= `-g*(2/500)^2/2`); this is not "approximately `1.57e-4`" in magnitude:
the distance between the actual magnitude and the claimed `1.57e-4` exceeds
the actual magnitude itself (the claimed number is off by a factor of two). -/
theorem y_deflection_concrete_not_157e4 :
    y_deflection 0 2 500 = -0.0000784532 ∧
    |y_deflection 0 2 500 - -0.000157| > |y_deflection 0 2 500| := by
  have h : y_deflection 0 2 500 = -0.0000784532 := by
    simp [y_deflection, polyval, parabola_eqn, radians, g]
    norm_num
  refine ⟨h, ?_⟩
  rw [h, show (-0.0000784532 : ℝ) - -0.000157 = 0.0000785468 by norm_num,
    abs_of_pos (by norm_num), abs_of_neg (by norm_num)]
  norm_num

/-- Claim C5 (amended): at `speed = 500`, `initial_trajectory = 0`,
`flight_length = 2`, `y_deflection` returns a small negative number whose
magnitude equals `g*(flight_length/speed)^2/2`, approximately `7.85e-5` m. -/
theorem y_deflection_concrete_scenario :
    y_deflection 0 2 500 = -(g * (2 / 500) ^ 2 / 2) ∧
    y_deflection 0 2 500 < 0 ∧
    |y_deflection 0 2 500 - -0.0000785| < 0.0000001 := by
  have h : y_deflection 0 2 500 = -0.0000784532 := by
    simp [y_deflection, polyval, parabola_eqn, radians, g]
    norm_num
  refine ⟨by rw [h]; norm_num [g], by rw [h]; norm_num, ?_⟩
  rw [h, show (-0.0000784532 : ℝ) - -0.0000785 = 0.0000000468 by norm_num,
    abs_of_pos (by norm_num)]
  norm_num

/-- Claim C8: whenever the root-finder cannot converge within its iteration
budget, `find_trajectory` fails with the distinct "failed to converge" error
(any error it reports is that one, propagated unchanged from the solver), and
it never silently returns a partially-converged value: an `ok` result `v` is
the `k`-th secant iterate of the run on the residual from the start pair
`(0, 0.0001)`, and the solver's tolerance test between `v` and its actual
previous iterate succeeded. -/
theorem find_trajectory_failure_semantics (theta L s : ℝ) (budget : ℕ) :
    (∀ e, find_trajectory theta L s budget = Except.error e →
      e = "failed to converge") ∧
    (∀ v, find_trajectory theta L s budget = Except.ok v →
      ∃ k, k < budget ∧
        (secant_iter (traj theta L s) 0 0.0001 k).2 = v ∧
        |(secant_iter (traj theta L s) 0 0.0001 k).2 -
          (secant_iter (traj theta L s) 0 0.0001 k).1| <
            1.48 * 10 ^ (-8 : ℤ)) := by
  constructor
  · intro e h
    unfold find_trajectory at h
    exact newton_model_error_msg _ _ _ _ _ _ h
  · intro v h
    unfold find_trajectory at h
    exact newton_model_ok_iterate _ _ _ _ _ _ h

theorem find_trajectory_failure_semantics_witness :
    ∃ e, find_trajectory 0 1 100 0 = Except.error e ∧
      e = "failed to converge" := by
  have hrun : find_trajectory 0 1 100 0 = Except.error "failed to converge" := by
    simp [find_trajectory, newton_model]
  exact ⟨_, hrun, (find_trajectory_failure_semantics 0 1 100 0).1 _ hrun⟩

/-- Claim C10: speed enters the parabola coefficients only through its square,
so for nonzero speed `s` every one of `parabola_eqn`, `y_deflection`,
`elevation` and `parabola_line_intersection_point` returns at `-s` exactly
what it returns at `s`: a negative speed is indistinguishable from its
positive counterpart (no positivity check is performed). -/
theorem speed_sign_invariance (t L theta omega s : ℝ) (hs : s ≠ 0) :
    parabola_eqn t (-s) = parabola_eqn t s ∧
    y_deflection t L (-s) = y_deflection t L s ∧
    elevation t L (-s) = elevation t L s ∧
    parabola_line_intersection_point t (-s) theta L omega =
      parabola_line_intersection_point t s theta L omega := by
  have key : parabola_eqn t (-s) = parabola_eqn t s := by
    unfold parabola_eqn
    rw [neg_mul, neg_sq]
  refine ⟨key, ?_, ?_, ?_⟩
  · unfold y_deflection
    rw [key]
  · unfold elevation
    rw [key]
  · unfold parabola_line_intersection_point intersect_poly
    rw [key]

theorem speed_sign_invariance_witness :
    parabola_eqn 1 (-2) = parabola_eqn 1 2 ∧
    y_deflection 1 3 (-2) = y_deflection 1 3 2 ∧
    elevation 1 3 (-2) = elevation 1 3 2 ∧
    parabola_line_intersection_point 1 (-2) 4 3 5 =
      parabola_line_intersection_point 1 2 4 3 5 :=
  speed_sign_invariance 1 3 4 5 2 (by norm_num)

/-- Claim C6, counterexample: the claim quantifies over every
`initial_trajectory`, but at `initial_trajectory = 180` (where
`tan(radians 180) = 0`) the code returns elevation `0`, not `180`: plain
`arctan` confines the result to `(-90, 90)` degrees. -/
theorem elevation_at_origin_counterexample : elevation 180 0 1 ≠ 180 := by
  have h : radians 180 = Real.pi := by
    unfold radians
    ring
  have h0 : elevation 180 0 1 = 0 := by
    simp [elevation, polyval1, polyder, parabola_eqn, h, degrees]
  rw [h0]
  norm_num

/-- Claim C6 (amended): for every `initial_trajectory` strictly between
`-90` and `90` degrees and every speed, `elevation` tends to
`initial_trajectory` as `flight_length` tends to `0`, and
`elevation initial_trajectory 0 speed = initial_trajectory` exactly. -/
theorem elevation_tendsto_initial_trajectory (t s : ℝ)
    (h1 : -90 < t) (h2 : t < 90) :
    Filter.Tendsto (fun L => elevation t L s) (nhds 0) (nhds t) ∧
    elevation t 0 s = t := by
  have hpi := Real.pi_pos
  have hr1 : -(Real.pi / 2) < radians t := by
    unfold radians
    nlinarith
  have hr2 : radians t < Real.pi / 2 := by
    unfold radians
    nlinarith
  have heq : elevation t 0 s = t := by
    have h0 : elevation t 0 s = degrees (Real.arctan (Real.tan (radians t))) := by
      simp [elevation, polyval1, polyder, parabola_eqn]
    rw [h0, Real.arctan_tan hr1 hr2, degrees_radians]
  refine ⟨?_, heq⟩
  have hfun : (fun L : ℝ => elevation t L s) = fun L : ℝ =>
      Real.arctan ((parabola_eqn t s).2.1 + L * (2 * (parabola_eqn t s).2.2)) *
        (180 / Real.pi) := by
    funext L
    simp [elevation, degrees, polyval1, polyder]
  have hcont : Continuous (fun L : ℝ => elevation t L s) := by
    rw [hfun]
    exact (Real.continuous_arctan.comp
      (continuous_const.add (continuous_id.mul continuous_const))).mul
      continuous_const
  have ht := hcont.tendsto 0
  rwa [heq] at ht

theorem elevation_tendsto_initial_trajectory_witness :
    Filter.Tendsto (fun L => elevation 30 L 7) (nhds 0) (nhds 30) ∧
    elevation 30 0 7 = 30 :=
  elevation_tendsto_initial_trajectory 30 7 (by norm_num) (by norm_num)

/-- Claim C7: for fixed nonzero speed and fixed `initial_trajectory` in the
positive range `(0, 90)` degrees, `elevation` is non-increasing in
`flight_length`: if `L1 ≤ L2` then the elevation at `L2` is at most the
elevation at `L1`. -/
theorem elevation_antitone_in_flight_length (t s L1 L2 : ℝ)
    (ht0 : 0 < t) (ht90 : t < 90) (hs : s ≠ 0) (hL : L1 ≤ L2) :
    elevation t L2 s ≤ elevation t L1 s := by
  have hpi := Real.pi_pos
  have hr0 : 0 < radians t := by
    unfold radians
    positivity
  have hr2 : radians t < Real.pi / 2 := by
    unfold radians
    nlinarith
  have hcos : 0 < Real.cos (radians t) :=
    Real.cos_pos_of_mem_Ioo ⟨by linarith, hr2⟩
  have hc2 : (parabola_eqn t s).2.2 < 0 :=
    parabola_c2_neg (mul_ne_zero hs (ne_of_gt hcos))
  have harg : (parabola_eqn t s).2.1 + L2 * (2 * (parabola_eqn t s).2.2) ≤
      (parabola_eqn t s).2.1 + L1 * (2 * (parabola_eqn t s).2.2) := by
    have h2 : 2 * (parabola_eqn t s).2.2 ≤ 0 := by linarith
    have := mul_le_mul_of_nonpos_right hL h2
    linarith
  have harc := Real.arctan_strictMono.monotone harg
  show Real.arctan _ * (180 / Real.pi) ≤ Real.arctan _ * (180 / Real.pi)
  apply mul_le_mul_of_nonneg_right harc
  positivity

theorem elevation_antitone_in_flight_length_witness :
    elevation 45 3 2 ≤ elevation 45 1 2 :=
  elevation_antitone_in_flight_length 45 2 1 3 (by norm_num) (by norm_num)
    (by norm_num) (by norm_num)

theorem mk_re (a b : ℝ) : (⟨a, b⟩ : ℂ).re = a := rfl

theorem mk_im (a b : ℝ) : (⟨a, b⟩ : ℂ).im = b := rfl

theorem mk_eq_ofReal (a : ℝ) : (⟨a, 0⟩ : ℂ) = (a : ℂ) := rfl

theorem npMaxC_real (a b : ℝ) : npMaxC ⟨a, 0⟩ ⟨b, 0⟩ = ⟨max a b, 0⟩ := by
  unfold npMaxC
  simp only [mk_re, mk_im]
  rcases lt_trichotomy a b with h | h | h
  · rw [if_pos h, max_eq_right h.le]
  · subst h
    simp
  · rw [if_neg (not_lt.2 h.le), if_pos h, max_eq_left h.le]

theorem csqrt_ofReal (d : ℝ) (h : 0 ≤ d) :
    csqrt (d : ℂ) = ((Real.sqrt d : ℝ) : ℂ) := by
  unfold csqrt
  rw [if_pos ⟨rfl, h⟩]
  rfl

theorem plp_fst (it s theta L omega : ℝ) :
    (parabola_line_intersection_point it s theta L omega).1 =
      npMaxC
        (polyroots2 (intersect_poly it s theta L omega).1
          (intersect_poly it s theta L omega).2.1
          (intersect_poly it s theta L omega).2.2).1
        (polyroots2 (intersect_poly it s theta L omega).1
          (intersect_poly it s theta L omega).2.1
          (intersect_poly it s theta L omega).2.2).2 := rfl

theorem plp_snd (it s theta L omega : ℝ) :
    (parabola_line_intersection_point it s theta L omega).2.1 =
      (line_intercept theta L omega : ℂ) +
        (parabola_line_intersection_point it s theta L omega).1 *
          (line_gradient omega : ℂ) := rfl

theorem plp_dist (it s theta L omega : ℝ) :
    (parabola_line_intersection_point it s theta L omega).2.2 =
      csqrt (((parabola_line_intersection_point it s theta L omega).1 -
          (L : ℂ)) ^ 2 +
        ((parabola_line_intersection_point it s theta L omega).2.1 -
          ((L * Real.tan (radians theta) : ℝ) : ℂ)) ^ 2) := rfl

theorem roots_of_quadratic {q0 q1 q2 x : ℝ} (hq2 : q2 ≠ 0)
    (hd : 0 ≤ q1 ^ 2 - 4 * q2 * q0) :
    isRoot2 (q0, q1, q2) x ↔
      x = (-q1 + Real.sqrt (q1 ^ 2 - 4 * q2 * q0)) / (2 * q2) ∨
      x = (-q1 - Real.sqrt (q1 ^ 2 - 4 * q2 * q0)) / (2 * q2) := by
  have hs : discrim q2 q1 q0 = Real.sqrt (q1 ^ 2 - 4 * q2 * q0) *
      Real.sqrt (q1 ^ 2 - 4 * q2 * q0) := by
    unfold discrim
    rw [Real.mul_self_sqrt hd]
  unfold isRoot2
  rw [show q0 + q1 * x + q2 * x ^ 2 = q2 * (x * x) + q1 * x + q0 by ring]
  exact quadratic_eq_zero_iff hq2 hs x

/-- Claim C9: in the degenerate co-linear boundary case
`parabola_line_intersection_point(0, speed, 0, flight_length, 0)` (horizontal
launch, horizontal line through the origin, so `a1 = 0` and `b1 = 0`), the
returned intersection point is `x = 0`, `y = 0`. -/
theorem plp_degenerate_colinear (s L : ℝ) (hs : s ≠ 0) :
    (parabola_line_intersection_point 0 s 0 L 0).1 = 0 ∧
    (parabola_line_intersection_point 0 s 0 L 0).2.1 = 0 := by
  have h0 : radians 0 = 0 := by
    unfold radians
    ring
  have hq : intersect_poly 0 s 0 L 0 = (0, 0, -g / 2 / s ^ 2) := by
    simp [intersect_poly, parabola_eqn, line_intercept, line_gradient, h0]
  have hroots : polyroots2 (0 : ℝ) 0 (-g / 2 / s ^ 2) = (⟨0, 0⟩, ⟨0, 0⟩) := by
    unfold polyroots2
    rw [if_pos (by norm_num)]
    norm_num
  have hx : (parabola_line_intersection_point 0 s 0 L 0).1 = 0 := by
    rw [plp_fst, hq, hroots]
    simp [npMaxC, Complex.ext_iff]
  refine ⟨hx, ?_⟩
  rw [plp_snd, hx]
  simp [line_intercept, h0]

theorem plp_degenerate_colinear_witness :
    (parabola_line_intersection_point 0 3 0 5 0).1 = 0 ∧
    (parabola_line_intersection_point 0 3 0 5 0).2.1 = 0 :=
  plp_degenerate_colinear 3 5 (by norm_num)

theorem npMax_roots_nonneg (q0 q1 q2 : ℝ) (hq2 : q2 ≠ 0)
    (hd : 0 ≤ q1 ^ 2 - 4 * q2 * q0) :
    ∃ x : ℝ,
      npMaxC (polyroots2 q0 q1 q2).1 (polyroots2 q0 q1 q2).2 = (x : ℂ) ∧
      isRoot2 (q0, q1, q2) x ∧ ∀ r, isRoot2 (q0, q1, q2) r → r ≤ x := by
  have hroots : polyroots2 q0 q1 q2 =
      (⟨(-q1 - Real.sqrt (q1 ^ 2 - 4 * q2 * q0)) / (2 * q2), 0⟩,
       ⟨(-q1 + Real.sqrt (q1 ^ 2 - 4 * q2 * q0)) / (2 * q2), 0⟩) := by
    unfold polyroots2
    rw [if_pos hd]
  set rm := (-q1 - Real.sqrt (q1 ^ 2 - 4 * q2 * q0)) / (2 * q2) with hrm
  set rp := (-q1 + Real.sqrt (q1 ^ 2 - 4 * q2 * q0)) / (2 * q2) with hrp
  refine ⟨max rm rp, ?_, ?_, ?_⟩
  · rw [hroots]
    show npMaxC ⟨rm, 0⟩ ⟨rp, 0⟩ = _
    rw [npMaxC_real]
    rfl
  · rcases max_choice rm rp with h | h <;> rw [h]
    · exact (roots_of_quadratic hq2 hd).mpr (Or.inr hrm)
    · exact (roots_of_quadratic hq2 hd).mpr (Or.inl hrp)
  · intro r hr
    rcases (roots_of_quadratic hq2 hd).mp hr with h | h
    · rw [h, ← hrp]
      exact le_max_right _ _
    · rw [h, ← hrm]
      exact le_max_left _ _

/-- Claim C1: whenever the quadratic `(c2)x^2 + (c1-b1)x + (c0-a1)` formed by
`parabola_line_intersection_point` has a real root (nonnegative discriminant;
the leading coefficient is nonzero since `speed*cos(radians traj) ≠ 0`), the
function returns `x` equal to the maximum real root of that quadratic,
`y = a1 + x*b1` at that root, and the Euclidean distance from `(x, y)` to the
reference point `(flight_length, flight_length*tan(radians theta))`. -/
theorem plp_returns_max_real_root (it s theta L omega : ℝ)
    (hsc : s * Real.cos (radians it) ≠ 0)
    (hd : 0 ≤ (intersect_poly it s theta L omega).2.1 ^ 2 -
      4 * (intersect_poly it s theta L omega).2.2 *
        (intersect_poly it s theta L omega).1) :
    ∃ x : ℝ,
      (parabola_line_intersection_point it s theta L omega).1 = (x : ℂ) ∧
      isRoot2 (intersect_poly it s theta L omega) x ∧
      (∀ r : ℝ, isRoot2 (intersect_poly it s theta L omega) r → r ≤ x) ∧
      (parabola_line_intersection_point it s theta L omega).2.1 =
        ((line_intercept theta L omega + x * line_gradient omega : ℝ) : ℂ) ∧
      (parabola_line_intersection_point it s theta L omega).2.2 =
        ((Real.sqrt ((x - L) ^ 2 +
          ((line_intercept theta L omega + x * line_gradient omega) -
            L * Real.tan (radians theta)) ^ 2) : ℝ) : ℂ) := by
  have hq2 : (intersect_poly it s theta L omega).2.2 ≠ 0 :=
    ne_of_lt (parabola_c2_neg hsc)
  obtain ⟨x, hmax, hroot, hmaxall⟩ :=
    npMax_roots_nonneg (intersect_poly it s theta L omega).1
      (intersect_poly it s theta L omega).2.1
      (intersect_poly it s theta L omega).2.2 hq2 hd
  refine ⟨x, ?_, hroot, hmaxall, ?_, ?_⟩
  · rw [plp_fst]
    exact hmax
  · rw [plp_snd, plp_fst, hmax]
    push_cast
    ring
  · rw [plp_dist, plp_snd, plp_fst, hmax]
    have hinner : ((x : ℂ) - (L : ℂ)) ^ 2 +
        (((line_intercept theta L omega : ℂ) +
            (x : ℂ) * (line_gradient omega : ℂ)) -
          ((L * Real.tan (radians theta) : ℝ) : ℂ)) ^ 2 =
        (((x - L) ^ 2 +
          ((line_intercept theta L omega + x * line_gradient omega) -
            L * Real.tan (radians theta)) ^ 2 : ℝ) : ℂ) := by
      push_cast
      ring
    rw [hinner, csqrt_ofReal _ (by positivity)]

theorem plp_returns_max_real_root_witness :
    ∃ x : ℝ,
      (parabola_line_intersection_point 0 2 0 1 0).1 = (x : ℂ) ∧
      isRoot2 (intersect_poly 0 2 0 1 0) x ∧
      (∀ r : ℝ, isRoot2 (intersect_poly 0 2 0 1 0) r → r ≤ x) ∧
      (parabola_line_intersection_point 0 2 0 1 0).2.1 =
        ((line_intercept 0 1 0 + x * line_gradient 0 : ℝ) : ℂ) ∧
      (parabola_line_intersection_point 0 2 0 1 0).2.2 =
        ((Real.sqrt ((x - 1) ^ 2 +
          ((line_intercept 0 1 0 + x * line_gradient 0) -
            1 * Real.tan (radians 0)) ^ 2) : ℝ) : ℂ) := by
  apply plp_returns_max_real_root 0 2 0 1 0
  · have h0 : radians 0 = 0 := by
      unfold radians
      ring
    rw [h0]
    norm_num
  · have h0 : radians 0 = 0 := by
      unfold radians
      ring
    simp [intersect_poly, parabola_eqn, line_intercept, line_gradient, h0]

/-- Claim C2 (amended): when the quadratic has no real root (negative
discriminant; leading coefficient nonzero since
`speed*cos(radians traj) ≠ 0`), `parabola_line_intersection_point` does not
fail: `np.max` selects the complex root with the larger imaginary part, and
the function silently returns a numeric triple whose `x` has strictly
positive imaginary part — a complex value, not an error, not NaN, and not a
value coerced to real. -/
theorem plp_complex_when_no_real_root (it s theta L omega : ℝ)
    (hsc : s * Real.cos (radians it) ≠ 0)
    (hd : (intersect_poly it s theta L omega).2.1 ^ 2 -
      4 * (intersect_poly it s theta L omega).2.2 *
        (intersect_poly it s theta L omega).1 < 0) :
    0 < (parabola_line_intersection_point it s theta L omega).1.im := by
  have hq2 : (intersect_poly it s theta L omega).2.2 < 0 := parabola_c2_neg hsc
  rw [plp_fst]
  set q0 := (intersect_poly it s theta L omega).1 with hq0
  set q1 := (intersect_poly it s theta L omega).2.1 with hq1
  set q2 := (intersect_poly it s theta L omega).2.2 with hq2d
  have hroots : polyroots2 q0 q1 q2 =
      (⟨-q1 / (2 * q2), -(Real.sqrt (4 * q2 * q0 - q1 ^ 2) / (2 * q2))⟩,
       ⟨-q1 / (2 * q2), Real.sqrt (4 * q2 * q0 - q1 ^ 2) / (2 * q2)⟩) := by
    unfold polyroots2
    rw [if_neg (not_le.2 hd)]
  have hu : 0 < Real.sqrt (4 * q2 * q0 - q1 ^ 2) :=
    Real.sqrt_pos.2 (by linarith)
  have hv : Real.sqrt (4 * q2 * q0 - q1 ^ 2) / (2 * q2) < 0 :=
    div_neg_of_pos_of_neg hu (by linarith)
  rw [hroots]
  unfold npMaxC
  simp only [mk_re, mk_im]
  rw [if_neg (lt_irrefl _), if_neg (lt_irrefl _), if_neg (by linarith)]
  simp only [mk_im]
  linarith

theorem plp_complex_when_no_real_root_witness :
    0 < (parabola_line_intersection_point 0 1 45 1 0).1.im := by
  apply plp_complex_when_no_real_root 0 1 45 1 0
  · have h0 : radians 0 = 0 := by
      unfold radians
      ring
    rw [h0]
    norm_num
  · have h0 : radians 0 = 0 := by
      unfold radians
      ring
    have h45 : radians 45 = Real.pi / 4 := by
      unfold radians
      ring
    simp [intersect_poly, parabola_eqn, line_intercept, line_gradient, h0, h45,
      Real.tan_pi_div_four]
    norm_num [g]

/-- Claim C2, counterexample: at `initial_trajectory = 0`, `speed = 1`,
`theta = 45`, `flight_length = 1`, `omega = 0` the quadratic
`(c2)x^2 + (c1-b1)x + (c0-a1)` has no real root (its discriminant is
`-2g < 0`), yet the function does not fail and does not surface any "no
intersection" error: it silently returns a numeric triple whose `x`
component is the complex number `(0, sqrt(2g)/g)` with nonzero imaginary
part. -/
theorem plp_no_real_root_counterexample :
    (parabola_line_intersection_point 0 1 45 1 0).1 =
      ⟨0, Real.sqrt (2 * g) / g⟩ ∧
    (parabola_line_intersection_point 0 1 45 1 0).1.im ≠ 0 := by
  have h0 : radians 0 = 0 := by
    unfold radians
    ring
  have h45 : radians 45 = Real.pi / 4 := by
    unfold radians
    ring
  have hq : intersect_poly 0 1 45 1 0 = (-1, 0, -g / 2) := by
    simp [intersect_poly, parabola_eqn, line_intercept, line_gradient, h0, h45,
      Real.tan_pi_div_four]
  have hroots : polyroots2 (-1 : ℝ) 0 (-g / 2) =
      (⟨0, Real.sqrt (2 * g) / g⟩, ⟨0, -(Real.sqrt (2 * g) / g)⟩) := by
    unfold polyroots2
    rw [if_neg (by norm_num [g])]
    rw [show 4 * (-g / 2) * (-1 : ℝ) - 0 ^ 2 = 2 * g by ring]
    rw [show 2 * (-g / 2) = -g by ring]
    simp only [Prod.ext_iff, Complex.ext_iff, mk_re, mk_im]
    refine ⟨⟨by norm_num, ?_⟩, by norm_num, ?_⟩
    · rw [div_neg]
      ring
    · rw [div_neg]
  have hx : (parabola_line_intersection_point 0 1 45 1 0).1 =
      ⟨0, Real.sqrt (2 * g) / g⟩ := by
    rw [plp_fst, hq, hroots]
    unfold npMaxC
    simp only [mk_re, mk_im]
    have hpos : 0 < Real.sqrt (2 * g) / g :=
      div_pos (Real.sqrt_pos.2 (by norm_num [g])) g_pos
    rw [if_neg (lt_irrefl _), if_neg (lt_irrefl _), if_neg (by linarith)]
  refine ⟨hx, ?_⟩
  rw [hx]
  simp only [mk_im]
  have hpos : 0 < Real.sqrt (2 * g) / g :=
    div_pos (Real.sqrt_pos.2 (by norm_num [g])) g_pos
  linarith

theorem tan_small_bound {r : ℝ} (h : |r| ≤ 0.0875) : |Real.tan r| ≤ 0.13 := by
  have hpi : Real.pi < 3.15 := Real.pi_lt_d2
  have hpi' : 3.14 < Real.pi := Real.pi_gt_d2
  have habs := abs_le.mp h
  have hc : Real.cos (Real.pi / 4) ≤ Real.cos |r| :=
    Real.cos_le_cos_of_nonneg_of_le_pi (abs_nonneg r) (by linarith) (by linarith)
  rw [Real.cos_pi_div_four] at hc
  have hsqrt2 : (1.4 : ℝ) ≤ Real.sqrt 2 := by
    nlinarith [Real.sq_sqrt (by norm_num : (0:ℝ) ≤ 2), Real.sqrt_nonneg 2]
  have hcos7 : (0.7 : ℝ) ≤ Real.cos r := by
    rw [← Real.cos_abs r]
    linarith
  have hcospos : (0 : ℝ) < Real.cos r := by linarith
  have hsin : |Real.sin r| ≤ |r| := by
    rcases le_or_lt 0 r with hr | hr
    · calc |Real.sin r| = Real.sin r :=
            abs_of_nonneg (Real.sin_nonneg_of_nonneg_of_le_pi hr (by linarith))
        _ ≤ r := Real.sin_le hr
        _ = |r| := (abs_of_nonneg hr).symm
    · have hr' : 0 ≤ -r := by linarith
      calc |Real.sin r| = |Real.sin (-r)| := by rw [Real.sin_neg, abs_neg]
        _ = Real.sin (-r) := abs_of_nonneg
            (Real.sin_nonneg_of_nonneg_of_le_pi hr' (by simp [abs_of_neg hr] at h; linarith))
        _ ≤ -r := Real.sin_le hr'
        _ = |r| := (abs_of_neg hr).symm
  rw [Real.tan_eq_sin_div_cos, abs_div, abs_of_pos hcospos,
    div_le_iff hcospos]
  nlinarith

theorem abs_radians_le {tr : ℝ} (h5 : |tr| ≤ 5) : |radians tr| ≤ 0.0875 := by
  have hpi : Real.pi < 3.15 := Real.pi_lt_d2
  have hpi0 := Real.pi_pos
  unfold radians
  rw [abs_mul, abs_of_pos (by positivity : (0:ℝ) < Real.pi / 180)]
  nlinarith [abs_nonneg tr]

theorem y_deflection_tan_form (tr L s : ℝ)
    (hcos : Real.cos (radians tr) ≠ 0) (hs : s ≠ 0) :
    y_deflection tr L s = L * Real.tan (radians tr) -
      g * L ^ 2 / (2 * s ^ 2) * (1 + Real.tan (radians tr) ^ 2) := by
  have hid : (1 + Real.tan (radians tr) ^ 2) = (Real.cos (radians tr) ^ 2)⁻¹ := by
    rw [← Real.inv_one_add_tan_sq hcos, inv_inv]
  unfold y_deflection polyval parabola_eqn
  rw [hid]
  field_simp
  ring

theorem y_deflection_strictMono (L s tr1 tr2 : ℝ)
    (hL1 : 0.1 ≤ L) (hL2 : L ≤ 10) (hs1 : 100 ≤ s) (hs2 : s ≤ 1000)
    (h1 : -5 ≤ tr1) (h1' : tr1 ≤ 5) (h2 : -5 ≤ tr2) (h2' : tr2 ≤ 5)
    (hlt : tr1 < tr2) :
    y_deflection tr1 L s < y_deflection tr2 L s := by
  have hpi : Real.pi < 3.15 := Real.pi_lt_d2
  have hpi' : 3.14 < Real.pi := Real.pi_gt_d2
  have hg : g = 9.80665 := rfl
  have hr1 : |radians tr1| ≤ 0.0875 := abs_radians_le (abs_le.mpr ⟨h1, h1'⟩)
  have hr2 : |radians tr2| ≤ 0.0875 := abs_radians_le (abs_le.mpr ⟨h2, h2'⟩)
  have hr1' := abs_le.mp hr1
  have hr2' := abs_le.mp hr2
  have hmem1 : radians tr1 ∈ Set.Ioo (-(Real.pi / 2)) (Real.pi / 2) :=
    ⟨by linarith, by linarith⟩
  have hmem2 : radians tr2 ∈ Set.Ioo (-(Real.pi / 2)) (Real.pi / 2) :=
    ⟨by linarith, by linarith⟩
  have hcos1 : 0 < Real.cos (radians tr1) := Real.cos_pos_of_mem_Ioo hmem1
  have hcos2 : 0 < Real.cos (radians tr2) := Real.cos_pos_of_mem_Ioo hmem2
  have hs0 : s ≠ 0 := by linarith
  have hrlt : radians tr1 < radians tr2 := by
    unfold radians
    have : (0:ℝ) < Real.pi / 180 := by positivity
    exact mul_lt_mul_of_pos_right hlt this
  have hT : Real.tan (radians tr1) < Real.tan (radians tr2) :=
    Real.strictMonoOn_tan hmem1 hmem2 hrlt
  have hT1 : |Real.tan (radians tr1)| ≤ 0.13 := tan_small_bound hr1
  have hT2 : |Real.tan (radians tr2)| ≤ 0.13 := tan_small_bound hr2
  have hT1' := abs_le.mp hT1
  have hT2' := abs_le.mp hT2
  have hcf1 := y_deflection_tan_form tr1 L s (ne_of_gt hcos1) hs0
  have hcf2 := y_deflection_tan_form tr2 L s (ne_of_gt hcos2) hs0
  have hs2pos : (0:ℝ) < 2 * s ^ 2 := by positivity
  have hss : (10000:ℝ) ≤ s ^ 2 := by
    linarith [sq_nonneg (s - 100)]
  have hLL : L ^ 2 ≤ 10 * L := by
    linarith [mul_nonneg (by linarith : (0:ℝ) ≤ L) (by linarith : (0:ℝ) ≤ 10 - L)]
  have hK : g * L ^ 2 / (2 * s ^ 2) ≤ 0.004904 * L := by
    rw [div_le_iff₀ hs2pos, hg]
    linarith [mul_nonneg (by linarith : (0:ℝ) ≤ 2 * s ^ 2 - 20000)
      (by linarith : (0:ℝ) ≤ L), hLL, hL1]
  have hKnn : 0 ≤ g * L ^ 2 / (2 * s ^ 2) := by
    rw [hg]
    positivity
  have hfactor : 0 < L - g * L ^ 2 / (2 * s ^ 2) *
      (Real.tan (radians tr1) + Real.tan (radians tr2)) := by
    have hA : g * L ^ 2 / (2 * s ^ 2) *
        (Real.tan (radians tr1) + Real.tan (radians tr2)) ≤
        g * L ^ 2 / (2 * s ^ 2) * 0.26 :=
      mul_le_mul_of_nonneg_left (by linarith) hKnn
    linarith [hA, hK, hKnn, hL1]
  have hdiff : y_deflection tr2 L s - y_deflection tr1 L s =
      (Real.tan (radians tr2) - Real.tan (radians tr1)) *
        (L - g * L ^ 2 / (2 * s ^ 2) *
          (Real.tan (radians tr1) + Real.tan (radians tr2))) := by
    rw [hcf1, hcf2]
    ring
  linarith [hdiff, mul_pos (by linarith : (0:ℝ) < Real.tan (radians tr2) -
    Real.tan (radians tr1)) hfactor]

/-- Claim C4: round-trip.  For `trajectory0` in `[-5, 5]` degrees,
`flight_length` in `[0.1, 10]` m and `speed` in `[100, 1000]` m/s, put
`y = y_deflection(trajectory0, flight_length, speed)` and
`theta = arctan(y/flight_length)` in degrees.  Then `trajectory0` is an exact
root of the residual that `find_trajectory(theta, flight_length, speed)`
drives to zero, and it is the only root in `[-5, 5]`: an exactly converged
solver value in that range equals `trajectory0` (well within the `1e-6`
tolerance). -/
theorem find_trajectory_round_trip (t0 L s : ℝ)
    (ht1 : -5 ≤ t0) (ht2 : t0 ≤ 5) (hL1 : 0.1 ≤ L) (hL2 : L ≤ 10)
    (hs1 : 100 ≤ s) (hs2 : s ≤ 1000) :
    traj (degrees (Real.arctan (y_deflection t0 L s / L))) L s t0 = 0 ∧
    ∀ tr, -5 ≤ tr → tr ≤ 5 →
      traj (degrees (Real.arctan (y_deflection t0 L s / L))) L s tr = 0 →
      tr = t0 := by
  have hL0 : L ≠ 0 := by linarith
  have hzero : traj (degrees (Real.arctan (y_deflection t0 L s / L))) L s t0 = 0 := by
    unfold traj vertical_deflection_vertex
    rw [radians_degrees, Real.tan_arctan, div_mul_cancel₀ _ hL0]
    ring
  refine ⟨hzero, ?_⟩
  intro tr htr1 htr2 hroot
  have heq : y_deflection tr L s = y_deflection t0 L s := by
    unfold traj vertical_deflection_vertex at hroot hzero
    linarith
  by_contra hne
  rcases lt_or_gt_of_ne hne with h | h
  · have := y_deflection_strictMono L s tr t0 hL1 hL2 hs1 hs2 htr1 htr2 ht1 ht2 h
    linarith
  · have := y_deflection_strictMono L s t0 tr hL1 hL2 hs1 hs2 ht1 ht2 htr1 htr2 h
    linarith

theorem find_trajectory_round_trip_witness :
    traj (degrees (Real.arctan (y_deflection 0 1 100 / 1))) 1 100 0 = 0 :=
  (find_trajectory_round_trip 0 1 100 (by norm_num) (by norm_num) (by norm_num)
    (by norm_num) (by norm_num) (by norm_num)).1

end ParabolicMotion
